import Mathlib

/-!
Verification of the batch/resource-lifecycle orchestration layer of the
paddleocr-guide example repository: language normalization and the engine
cache (`examples/basic/03_multilingual.py`, `examples/_common/config.py`),
the batch runner (`examples/_common/utils.py`), and the engine lifecycle
manager (`examples/_common/base.py`), shallowly embedded in Lean.
-/

namespace PaddleOCRGuide

/-! ## Language configuration (`examples/_common/config.py`) -/

/-- `SUPPORTED_LANGUAGES` from `config.py`: PaddleOCR language codes and
their human-readable descriptions, as an association list. -/
def SUPPORTED_LANGUAGES : List (String × String) :=
  [("ch", "中文 (Chinese)"),
   ("chinese_cht", "繁体中文 (Traditional Chinese)"),
   ("en", "英文 (English)"),
   ("japan", "日文 (Japanese)"),
   ("korean", "韩文 (Korean)"),
   ("french", "法语 (French)"),
   ("german", "德语 (German)"),
   ("italian", "意大利语 (Italian)"),
   ("spanish", "西班牙语 (Spanish)"),
   ("portuguese", "葡萄牙语 (Portuguese)"),
   ("russian", "俄语 (Russian)"),
   ("uk", "乌克兰语 (Ukrainian)"),
   ("be", "白俄罗斯语 (Belarusian)"),
   ("te", "泰卢固语 (Telugu)"),
   ("ka", "卡纳达语 (Kannada)"),
   ("ta", "泰米尔语 (Tamil)"),
   ("latin", "拉丁语 (Latin)"),
   ("arabic", "阿拉伯语 (Arabic)"),
   ("fa", "波斯语 (Persian/Farsi)"),
   ("ug", "维吾尔语 (Uyghur)"),
   ("hi", "印地语 (Hindi)"),
   ("mr", "马拉地语 (Marathi)"),
   ("ne", "尼泊尔语 (Nepali)"),
   ("th", "泰语 (Thai)"),
   ("vi", "越南语 (Vietnamese)"),
   ("ms", "马来语 (Malay)"),
   ("id", "印尼语 (Indonesian)"),
   ("cyrillic", "西里尔文 (Cyrillic)"),
   ("devanagari", "天城文 (Devanagari)")]

/-- `LANGUAGE_ALIASES` from `config.py`: shorthand/alias language codes
mapped to their canonical codes. -/
def LANGUAGE_ALIASES : List (String × String) :=
  [("chinese", "ch"),
   ("english", "en"),
   ("japanese", "japan"),
   ("korea", "korean"),
   ("de", "german"),
   ("fr", "french"),
   ("es", "spanish"),
   ("pt", "portuguese"),
   ("ru", "russian"),
   ("ar", "arabic")]

/-- Python's `str.lower()` on the (ASCII) language codes used here. -/
def strLower (s : String) : String := String.mk (s.data.map Char.toLower)

/-- `is_supported_language` from `config.py`: exact (case-sensitive)
membership of `lang` among the supported codes or the aliases. -/
def is_supported_language (lang : String) : Bool :=
  if (SUPPORTED_LANGUAGES.lookup lang).isSome then true
  else if (LANGUAGE_ALIASES.lookup lang).isSome then true
  else false

/-- `normalize_language` from `config.py`: tries the lowercased form
against the supported codes, then the exact form, then the lowercased
form against the aliases, then the exact form; `none` models the
`ValueError` raised for an unresolvable language. -/
def normalize_language (lang : String) : Option String :=
  let langLower := strLower lang
  if (SUPPORTED_LANGUAGES.lookup langLower).isSome then some langLower
  else if (SUPPORTED_LANGUAGES.lookup lang).isSome then some lang
  else
    match LANGUAGE_ALIASES.lookup langLower with
    | some c => some c
    | none =>
      match LANGUAGE_ALIASES.lookup lang with
      | some c => some c
      | none => none

example : normalize_language "chinese" = some "ch" := by decide
example : normalize_language "CH" = some "ch" := by decide
example : normalize_language "xx" = none := by decide
example : is_supported_language "CH" = false := by decide

/-! ## Batch runner (`batch_process` in `examples/_common/utils.py`)

`batch_process(items, process_func, on_error, progress_callback)` iterates
the items in order; for each item it first fires the progress callback
(whose exceptions are uncaught and abort the run), then calls
`process_func`; successes go to `results`, failures append an error record
to `errors` and, depending on the policy string, continue, break, or
re-raise.  Side effects (which callbacks and process calls happened, in
which order) are embedded as an explicit event trace; exceptions are
embedded as `Except` / `Option` values. -/

/-- The error record `{"item": ..., "error": ..., "error_type": ...}`
appended to `errors` for a failing item (`str` conversions kept opaque). -/
structure ErrorInfo (α ε : Type) where
  item : α
  error : ε
  deriving Repr, DecidableEq

/-- One observable call made by `batch_process`: a progress-callback
invocation with `(current, total, item)`, or a `process_func` invocation. -/
inductive Event (α : Type) where
  | progress (i total : Nat) (item : α)
  | process (item : α)
  deriving Repr, DecidableEq

/-- Result of a `batch_process` run: normal return of
`(results, errors)` plus the event trace, or an exception propagating out
of the loop — either one raised by the progress callback or the original
processing failure re-raised under `on_error="raise"`. -/
inductive BatchOutcome (α β κ ε : Type) where
  | ok (results : List β) (errors : List (ErrorInfo α ε)) (trace : List (Event α))
  | cbRaised (e : κ) (trace : List (Event α))
  | fnRaised (e : ε) (trace : List (Event α))
  deriving Repr, DecidableEq

namespace BatchOutcome

variable {α β κ ε : Type}

/-- Record one more event at the front of the outcome's trace. -/
def addEvent (ev : Event α) : BatchOutcome α β κ ε → BatchOutcome α β κ ε
  | ok rs es tr => ok rs es (ev :: tr)
  | cbRaised e tr => cbRaised e (ev :: tr)
  | fnRaised e tr => fnRaised e (ev :: tr)

/-- Record several events at the front of the outcome's trace. -/
def addEvents (evs : List (Event α)) : BatchOutcome α β κ ε → BatchOutcome α β κ ε
  | ok rs es tr => ok rs es (evs ++ tr)
  | cbRaised e tr => cbRaised e (evs ++ tr)
  | fnRaised e tr => fnRaised e (evs ++ tr)

/-- Prepend a success result (no effect on a propagating exception). -/
def addResult (b : β) : BatchOutcome α β κ ε → BatchOutcome α β κ ε
  | ok rs es tr => ok (b :: rs) es tr
  | o => o

/-- Prepend an error record (no effect on a propagating exception). -/
def addError (info : ErrorInfo α ε) : BatchOutcome α β κ ε → BatchOutcome α β κ ε
  | ok rs es tr => ok rs (info :: es) tr
  | o => o

end BatchOutcome

/-- The progress events generated for one item: one `Event.progress` when a
callback is supplied (`if progress_callback:`), none otherwise. -/
def progressEvents {α κ : Type} (cb : Option (Nat → Nat → α → Option κ))
    (i total : Nat) (item : α) : List (Event α) :=
  match cb with
  | none => []
  | some _ => [Event.progress i total item]

/-- The loop body of `batch_process`, recursing over the remaining items
with `i` the 1-based position of the next item.  `process_func` is the
opaque processing function (`Except` models its raising); `cb` the optional
progress callback (`some k` models it raising `k`). -/
def batch_process_go {α β κ ε : Type} (process_func : α → Except ε β)
    (cb : Option (Nat → Nat → α → Option κ)) (on_error : String) (total : Nat) :
    List α → Nat → BatchOutcome α β κ ε
  | [], _ => .ok [] [] []
  | item :: rest, i =>
    match (match cb with | none => none | some g => g i total item) with
    | some e => .cbRaised e (progressEvents cb i total item)
    | none =>
      BatchOutcome.addEvents (progressEvents cb i total item) <|
        match process_func item with
        | .ok b =>
          ((batch_process_go process_func cb on_error total rest (i + 1)).addResult
            b).addEvent (.process item)
        | .error e =>
          if on_error == "stop" then .ok [] [⟨item, e⟩] [.process item]
          else if on_error == "raise" then .fnRaised e [.process item]
          else
            ((batch_process_go process_func cb on_error total rest
              (i + 1)).addError ⟨item, e⟩).addEvent (.process item)

/-- `batch_process` from `utils.py`: run the whole item list from position
1 with `total = len(items)`. -/
def batch_process {α β κ ε : Type} (items : List α) (process_func : α → Except ε β)
    (on_error : String := "continue")
    (progress_callback : Option (Nat → Nat → α → Option κ) := none) :
    BatchOutcome α β κ ε :=
  batch_process_go process_func progress_callback on_error items.length items 1

/-- The `summary` block built by `create_summary_report` in `utils.py`:
`success_rate` is `none` for the `"N/A"` sentinel when `total = 0`,
otherwise the percentage `success_count / total * 100` (kept exact as a
rational; the source only formats it to one decimal place). -/
structure SummaryReport (α ε : Type) where
  total : Nat
  success : Nat
  failed : Nat
  success_rate : Option ℚ
  errors : List (ErrorInfo α ε)
  deriving Repr

/-- `create_summary_report(total, success_count, errors)` from `utils.py`
(the `timestamp` and optional `extra` block are omitted as pure I/O
metadata). -/
def create_summary_report {α ε : Type} (total success_count : Nat)
    (errors : List (ErrorInfo α ε)) : SummaryReport α ε :=
  { total := total
    success := success_count
    failed := errors.length
    success_rate :=
      if total > 0 then some ((success_count : ℚ) / (total : ℚ) * 100) else none
    errors := errors }

/-! ## Exceptions (`examples/_common/exceptions.py`) and engine factory

Engine construction (`PaddleOCR(lang=...)`) is external; its observable
behavior is that it either returns a fresh engine object, raises
`ImportError` (PaddleOCR not installed), or raises some other exception.
Engine objects are modelled by `Nat` identities allocated from a counter,
so that object identity (`is`) is equality of identifiers. -/

/-- Observable outcome of one invocation of the `PaddleOCR` constructor. -/
inductive FactoryOutcome where
  | ok
  | importError
  | runtimeError
  deriving Repr, DecidableEq

/-- The exceptions of the orchestration layer that the embedded code can
raise: `OCRConfigError`, `OCRInitError` (with its `error_code`),
`OCRFileNotFoundError`, and the plain `ValueError` of
`normalize_language`. -/
inductive OCRErr where
  | configError (msg : String)
  | initError (error_code : String)
  | fileNotFound
  | valueError
  deriving Repr, DecidableEq

/-! ## Engine cache (`MultilingualOCR._get_or_create_engine` in
`examples/basic/03_multilingual.py`)

The cache `self._engine_cache : dict[str, Any]` is embedded as an
association list from normalized language codes to engine identifiers,
together with a fresh-identifier counter and a count of factory
invocations (the instrumentation that makes "the factory is invoked only
once" a provable statement). -/

/-- The mutable state of a `MultilingualOCR` instance. -/
structure EngineCache where
  cache : List (String × Nat)
  nextId : Nat
  created : Nat
  deriving Repr, DecidableEq

/-- A `MultilingualOCR` as constructed by `__init__`: empty cache. -/
def EngineCache.empty : EngineCache := ⟨[], 0, 0⟩

/-- `MultilingualOCR._get_or_create_engine(lang)`: reject unsupported
languages with `OCRConfigError`, normalize, serve a cache hit, otherwise
invoke the factory, cache and return the fresh engine; `ImportError`
becomes `OCRInitError` code `E103`, any other constructor failure code
`E101`.  The updated state is returned alongside the result so that the
state after a raising call is also visible. -/
def get_or_create_engine (factory : String → FactoryOutcome) (lang : String)
    (s : EngineCache) : Except OCRErr Nat × EngineCache :=
  if ¬ is_supported_language lang then
    (.error (.configError s!"不支持的语言: {lang}"), s)
  else
    match normalize_language lang with
    | none => (.error .valueError, s)
    | some normalized =>
      match s.cache.lookup normalized with
      | some engine => (.ok engine, s)
      | none =>
        match factory normalized with
        | .ok =>
          (.ok s.nextId,
            { cache := (normalized, s.nextId) :: s.cache,
              nextId := s.nextId + 1,
              created := s.created + 1 })
        | .importError => (.error (.initError "E103"), { s with created := s.created + 1 })
        | .runtimeError => (.error (.initError "E101"), { s with created := s.created + 1 })

/-! ## Lifecycle manager (`OCRContextManager` in `examples/_common/base.py`) -/

/-- The state of an `OCRContextManager`: the held engine (`self.ocr`,
`None` when absent) and the `self._initialized` flag.  Configuration
fields (`lang`, flags) do not affect the lifecycle and are omitted. -/
structure OCRContextManager where
  ocr : Option Nat
  initialized : Bool
  deriving Repr, DecidableEq

/-- A freshly constructed manager: `self.ocr = None`,
`self._initialized = False`. -/
def OCRContextManager.new : OCRContextManager := ⟨none, false⟩

/-- `OCRContextManager.initialize()`: returns the existing engine when
`self._initialized and self.ocr is not None`; otherwise invokes the
factory (`newHandle` is the identity the constructor would allocate).  The
returned `Bool` instruments whether the factory was invoked. -/
def OCRContextManager.initialize (factory : FactoryOutcome) (newHandle : Nat)
    (m : OCRContextManager) : Except OCRErr Nat × OCRContextManager × Bool :=
  match m.initialized, m.ocr with
  | true, some handle => (.ok handle, m, false)
  | _, _ =>
    match factory with
    | .ok => (.ok newHandle, { ocr := some newHandle, initialized := true }, true)
    | .importError => (.error (.initError "E103"), m, true)
    | .runtimeError => (.error (.initError "E101"), m, true)

/-- `OCRContextManager.cleanup()`: release the engine when one is held
(`if self.ocr is not None:`), setting `self.ocr = None` and
`self._initialized = False`; a no-op otherwise.  The returned `Nat`
instruments how many releases this call performed (0 or 1). -/
def OCRContextManager.cleanup (m : OCRContextManager) : OCRContextManager × Nat :=
  match m.ocr with
  | some _ => ({ ocr := none, initialized := false }, 1)
  | none => (m, 0)

/-! ## Multilingual recognition (`examples/basic/03_multilingual.py`)

`MultilingualOCR.recognize` checks the image path, obtains an engine from
the cache, runs `engine.predict` and folds the formatted texts into a
`LanguageResult`.  The external predict-and-format step is embedded as an
opaque function from the language code to either a raised exception
message or the list of per-text confidences (the text strings themselves
never influence control flow).  Confidences are rationals. -/

/-- `LanguageResult` from `03_multilingual.py`; `texts` keeps only each
text's confidence (the displayed string is irrelevant to the logic), and
the display-only `language_name` field is omitted. -/
structure LanguageResult where
  language_code : String
  texts : List ℚ
  average_confidence : ℚ
  text_count : Nat
  error : Option String
  deriving Repr, DecidableEq

/-- `LanguageResult.is_success`: `self.error is None and self.text_count > 0`. -/
def LanguageResult.is_success (r : LanguageResult) : Bool :=
  r.error.isNone && r.text_count > 0

/-- `AutoDetectResult` from `03_multilingual.py`. -/
structure AutoDetectResult where
  best_match : Option LanguageResult
  all_results : List LanguageResult
  deriving Repr, DecidableEq

/-- `AutoDetectResult.detected_language`:
`self.best_match.language_code if self.best_match else None`. -/
def AutoDetectResult.detected_language (r : AutoDetectResult) : Option String :=
  r.best_match.map LanguageResult.language_code

/-- `MultilingualOCR.recognize(image_path, lang)`: raise
`OCRFileNotFoundError` when the path does not exist (`pathExists` stands
for `Path(image_path).exists()`); re-raise `OCRException`s coming out of
`_get_or_create_engine`; turn any other exception from
`engine.predict`/formatting (`predict lang = .error msg`) into an error
`LanguageResult`; otherwise average the confidences (0.0 when no text). -/
def recognize (factory : String → FactoryOutcome) (pathExists : Bool)
    (predict : String → Except String (List ℚ)) (lang : String)
    (s : EngineCache) : Except OCRErr (LanguageResult × EngineCache) :=
  if pathExists = false then .error .fileNotFound
  else
    match get_or_create_engine factory lang s with
    | (.error e, _) => .error e
    | (.ok _, s1) =>
      match predict lang with
      | .error msg =>
        .ok ({ language_code := lang, texts := [], average_confidence := 0,
               text_count := 0, error := some msg }, s1)
      | .ok texts =>
        .ok ({ language_code := lang, texts := texts,
               average_confidence :=
                 if texts.length > 0 then texts.sum / (texts.length : ℚ) else 0,
               text_count := texts.length, error := none }, s1)

/-- The loop of `MultilingualOCR.auto_detect`: try each candidate in
order via `recog` (the `recognize` call), append every result to the
accumulator, and replace the running best only when the result
`is_success` and its `average_confidence` is strictly greater than
`best_confidence`.  Exceptions from `recog` propagate. -/
def auto_detect_go (recog : String → EngineCache → Except OCRErr (LanguageResult × EngineCache)) :
    List String → EngineCache → ℚ → Option LanguageResult → List LanguageResult →
    Except OCRErr (AutoDetectResult × EngineCache)
  | [], s, _, best, acc => .ok ({ best_match := best, all_results := acc.reverse }, s)
  | lang :: rest, s, best_confidence, best, acc =>
    match recog lang s with
    | .error e => .error e
    | .ok (r, s1) =>
      if r.is_success = true ∧ best_confidence < r.average_confidence then
        auto_detect_go recog rest s1 r.average_confidence (some r) (r :: acc)
      else
        auto_detect_go recog rest s1 best_confidence best (r :: acc)

/-- `MultilingualOCR.auto_detect(image_path, candidates)`: run the loop
with `best_result = None`, `best_confidence = 0.0` over the candidate
list (default `["ch", "en", "japan", "korean"]` supplied by the caller). -/
def auto_detect (factory : String → FactoryOutcome) (pathExists : Bool)
    (predict : String → Except String (List ℚ)) (candidates : List String)
    (s : EngineCache) : Except OCRErr (AutoDetectResult × EngineCache) :=
  auto_detect_go (recognize factory pathExists predict) candidates s 0 none []

/-! ## Helper lemmas -/

/-- A successful association-list lookup comes from an entry of the list. -/
theorem lookup_isSome_mem {l : List (String × String)} {k : String}
    (h : (l.lookup k).isSome = true) : ∃ v, (k, v) ∈ l := by
  induction l with
  | nil => simp [List.lookup] at h
  | cons p rest ih =>
    obtain ⟨a, b⟩ := p
    rw [List.lookup_cons] at h
    rcases hk : (k == a) with _ | _
    · simp only [hk] at h
      obtain ⟨v, hv⟩ := ih h
      exact ⟨v, List.mem_cons_of_mem _ hv⟩
    · exact ⟨b, by simp [eq_of_beq hk]⟩

@[simp] theorem addEvents_nil {α β κ ε : Type} (o : BatchOutcome α β κ ε) :
    o.addEvents [] = o := by
  cases o <;> simp [BatchOutcome.addEvents]

/-- With no progress callback and `on_error="continue"`, `batch_process_go`
returns normally with one entry in `results ⊎ errors` per item. -/
theorem batch_go_continue_ok {α β κ ε : Type} (f : α → Except ε β) (total : Nat) :
    ∀ (items : List α) (i : Nat), ∃ res errs tr,
      batch_process_go (κ := κ) f none "continue" total items i =
        .ok res errs tr ∧ res.length + errs.length = items.length := by
  intro items
  induction items with
  | nil => intro i; exact ⟨[], [], [], rfl, rfl⟩
  | cons item rest ih =>
    intro i
    obtain ⟨res, errs, tr, heq, hlen⟩ := ih (i + 1)
    cases hf : f item with
    | ok b =>
      refine ⟨b :: res, errs, Event.process item :: tr, ?_, ?_⟩
      · simp [batch_process_go, progressEvents, hf, heq, BatchOutcome.addResult,
          BatchOutcome.addEvent]
      · simpa using by omega
    | error e =>
      refine ⟨res, ⟨item, e⟩ :: errs, Event.process item :: tr, ?_, ?_⟩
      · simp [batch_process_go, progressEvents, hf, heq, BatchOutcome.addError,
          BatchOutcome.addEvent]
      · simpa using by omega

/-- The per-image accumulation loop of `BatchOCR.process_directory` in
`examples/basic/02_batch_ocr.py`: every `ImageResult` is appended to
`batch_result.results` and bumps exactly one of `success_count` /
`failed_count` according to `result.is_success` (each result abstracted
to its `is_success` flag). -/
def process_directory_counts : List Bool → Nat × Nat
  | [] => (0, 0)
  | r :: rest =>
    let p := process_directory_counts rest
    if r then (p.1 + 1, p.2) else (p.1, p.2 + 1)

theorem process_directory_counts_sum (rs : List Bool) :
    (process_directory_counts rs).1 + (process_directory_counts rs).2 =
      rs.length := by
  induction rs with
  | nil => rfl
  | cons r rest ih => cases r <;> simp [process_directory_counts] <;> omega

/-- **C1.** For every finite item list and processing function, running
`batch_process` with `on_error="continue"` and no callback returns
normally and records exactly one outcome per submitted item:
`len(results) + len(errors) = N`, and the summary report built from the
run satisfies `success + failed = N`; likewise the
`process_directory` counting loop satisfies
`success_count + failed_count = N`. -/
theorem C1_continue_one_outcome_per_item {α β ε : Type}
    (items : List α) (f : α → Except ε β) :
    (∃ res errs tr,
      batch_process (κ := Unit) items f "continue" none = .ok res errs tr ∧
      res.length + errs.length = items.length ∧
      (create_summary_report items.length res.length errs).success +
        (create_summary_report items.length res.length errs).failed =
          items.length) ∧
    (∀ imageResults : List Bool,
      (process_directory_counts imageResults).1 +
        (process_directory_counts imageResults).2 = imageResults.length) := by
  constructor
  · obtain ⟨res, errs, tr, heq, hlen⟩ := batch_go_continue_ok f items.length items 1
    exact ⟨res, errs, tr, heq, hlen, by simpa [create_summary_report] using hlen⟩
  · exact process_directory_counts_sum

/-- With no callback and `on_error="stop"`, a batch whose prefix `pre`
succeeds and whose next item `b` fails stops right after `b`: the items
after `b` are never passed to `process_func`. -/
theorem batch_go_stop_first_failure {α β κ ε : Type} (f : α → Except ε β)
    (total : Nat) (b : α) (rest : List α) (eb : ε) (hb : f b = .error eb) :
    ∀ (pre : List α) (i : Nat), (∀ x ∈ pre, ∃ y, f x = .ok y) →
    ∃ res, batch_process_go (κ := κ) f none "stop" total (pre ++ b :: rest) i =
      .ok res [⟨b, eb⟩] ((pre ++ [b]).map Event.process) ∧
      res.length = pre.length := by
  intro pre
  induction pre with
  | nil =>
    intro i _
    refine ⟨[], ?_, rfl⟩
    simp [batch_process_go, progressEvents, hb]
  | cons a pre' ih =>
    intro i hpre
    obtain ⟨y, hy⟩ := hpre a (List.mem_cons_self a pre')
    obtain ⟨res, heq, hlen⟩ := ih (i + 1) fun x hx => hpre x (List.mem_cons_of_mem _ hx)
    refine ⟨y :: res, ?_, by simpa using hlen⟩
    simp [batch_process_go, progressEvents, hy, heq, BatchOutcome.addResult,
      BatchOutcome.addEvent]

/-- **C5.** Under `on_error="stop"` the batch stops at the first failure:
with a succeeding prefix `pre`, a failing item `b` and arbitrary remaining
items `rest`, the returned results cover exactly `pre`, the single error
record is for `b`, and the event trace shows `process_func` was applied
exactly to `pre ++ [b]` — never to any item of `rest`.  (For the spec's
`[ok, fail, ok]` instance, `pre` and `rest` are singletons: 2 outcomes,
the second a failure record.) -/
theorem C5_stop_at_first_failure {α β ε : Type} (pre : List α) (b : α)
    (rest : List α) (f : α → Except ε β) (eb : ε)
    (hpre : ∀ x ∈ pre, ∃ y, f x = .ok y) (hb : f b = .error eb) :
    ∃ res, batch_process (κ := Unit) (pre ++ b :: rest) f "stop" none =
      .ok res [⟨b, eb⟩] ((pre ++ [b]).map Event.process) ∧
      res.length = pre.length := by
  obtain ⟨res, heq, hlen⟩ :=
    batch_go_stop_first_failure (κ := Unit) f (pre ++ b :: rest).length b rest eb hb pre 1 hpre
  exact ⟨res, heq, hlen⟩

/-- **C5 witness.** The concrete `[ok, fail, ok]` scenario: items
`["a.png", "b.png", "c.png"]` where only `"b.png"` fails: one success
result, one error record (for `"b.png"`), and `"c.png"` is never passed
to the processing function. -/
theorem C5_stop_at_first_failure_witness :
    ∃ res, batch_process (κ := Unit) ["a.png", "b.png", "c.png"]
        (fun x => if x == "b.png" then Except.error "decode error" else Except.ok x)
        "stop" none =
      .ok res [⟨"b.png", "decode error"⟩]
        ((["a.png"] ++ ["b.png"]).map Event.process) ∧
      res.length = ["a.png"].length := by
  exact C5_stop_at_first_failure ["a.png"] "b.png" ["c.png"]
    (fun x => if x == "b.png" then Except.error "decode error" else Except.ok x)
    "decode error"
    (by intro x hx; simp at hx; subst hx; exact ⟨"a.png", rfl⟩)
    rfl

/-- With a supplied, non-raising callback and `on_error="continue"`, the
event trace of `batch_process_go` is exactly, for each item in order, the
progress event `(i, total, item)` immediately followed by the
`process_func` invocation on that item. -/
theorem batch_go_trace {α β κ ε : Type} (f : α → Except ε β)
    (g : Nat → Nat → α → Option κ) (hg : ∀ i t a, g i t a = none) (total : Nat) :
    ∀ (items : List α) (i : Nat), ∃ res errs,
      batch_process_go f (some g) "continue" total items i = .ok res errs
        (((items.enumFrom i).map fun p =>
          [Event.progress p.1 total p.2, Event.process p.2]).flatten) := by
  intro items
  induction items with
  | nil => intro i; exact ⟨[], [], rfl⟩
  | cons item rest ih =>
    intro i
    obtain ⟨res, errs, heq⟩ := ih (i + 1)
    cases hf : f item with
    | ok b =>
      refine ⟨b :: res, errs, ?_⟩
      simp [batch_process_go, progressEvents, hg, hf, heq, BatchOutcome.addResult,
        BatchOutcome.addEvent, BatchOutcome.addEvents, List.enumFrom]
    | error e =>
      refine ⟨res, ⟨item, e⟩ :: errs, ?_⟩
      simp [batch_process_go, progressEvents, hg, hf, heq, BatchOutcome.addError,
        BatchOutcome.addEvent, BatchOutcome.addEvents, List.enumFrom]

/-- **C8.** The progress callback is invoked with `(i, total, item)`
before the processing function on each item (shown by the exact event
trace under `on_error="continue"` with a non-raising callback), and a
raising callback is never recorded as an item failure under any policy:
the run aborts immediately with the callback's exception, before
`process_func` is ever invoked on that item or any later one. -/
theorem C8_progress_callback {α β ε κ : Type} (f : α → Except ε β)
    (g : Nat → Nat → α → Option κ) :
    ((∀ i t a, g i t a = none) → ∀ (items : List α), ∃ res errs,
      batch_process items f "continue" (some g) = .ok res errs
        (((items.enumFrom 1).map fun p =>
          [Event.progress p.1 items.length p.2, Event.process p.2]).flatten)) ∧
    (∀ (pol : String) (a : α) (rest : List α) (e : κ),
      g 1 (a :: rest).length a = some e →
      batch_process (a :: rest) f pol (some g) =
        .cbRaised e [Event.progress 1 (a :: rest).length a]) := by
  constructor
  · intro hg items
    exact batch_go_trace f g hg items.length items 1
  · intro pol a rest e he
    have he' : g 1 (rest.length + 1) a = some e := by simpa using he
    simp [batch_process, batch_process_go, progressEvents, he']

/-- **C8 witness.** Both parts of `C8_progress_callback` at concrete
inputs: a two-item batch with a silent callback produces the interleaved
progress/process trace, and a callback raising on the first item of the
same batch aborts the run at once under policy `"stop"`. -/
theorem C8_progress_callback_witness :
    (∃ res errs,
      batch_process [10, 20] (fun n => (Except.ok (n + 1) : Except String Nat))
        "continue" (some fun _ _ _ => (none : Option String)) = .ok res errs
        ((([10, 20].enumFrom 1).map fun p =>
          [Event.progress p.1 [10, 20].length p.2, Event.process p.2]).flatten)) ∧
    batch_process [10, 20] (fun n => (Except.ok (n + 1) : Except String Nat)) "stop"
        (some fun _ _ _ => (some "cb boom" : Option String)) =
      .cbRaised "cb boom" [Event.progress 1 [10, 20].length 10] := by
  constructor
  · exact (C8_progress_callback (fun n => (Except.ok (n + 1) : Except String Nat))
      (fun _ _ _ => (none : Option String))).1 (fun _ _ _ => rfl) [10, 20]
  · exact (C8_progress_callback (fun n => (Except.ok (n + 1) : Except String Nat))
      (fun _ _ _ => (some "cb boom" : Option String))).2 "stop" 10 [20] "cb boom" rfl

/-- **C6.** `initialize()` is idempotent and atomic on failure: on an
already-initialized manager it returns the held engine unchanged without
invoking the factory; on an uninitialized manager whose factory raises,
the state stays uninitialized (`ocr = None`, `_initialized = False`) and
an `OCRInitError` is raised with code `E103` for a missing dependency
(`ImportError`) and `E101` for a runtime failure. -/
theorem C6_initialize_idempotent_atomic (m : OCRContextManager)
    (factory : FactoryOutcome) (n handle : Nat) :
    (m.initialized = true → m.ocr = some handle →
      m.initialize factory n = (.ok handle, m, false)) ∧
    (m.initialized = false → m.ocr = none →
      m.initialize .importError n = (.error (.initError "E103"), m, true) ∧
      m.initialize .runtimeError n = (.error (.initError "E101"), m, true)) := by
  constructor
  · intro hinit hocr
    simp [ OCRContextManager.initialize, hinit, hocr]
  · intro hinit hocr
    constructor <;> simp [ OCRContextManager.initialize, hinit, hocr]

/-- **C6 witness.** Both parts at concrete managers: a Ready manager
holding engine 7 returns it untouched, and a fresh manager with a failing
factory stays fresh while raising the tagged error. -/
theorem C6_initialize_idempotent_atomic_witness :
    OCRContextManager.initialize FactoryOutcome.ok 3 ⟨some 7, true⟩ =
      (.ok 7, ⟨some 7, true⟩, false) ∧
    OCRContextManager.initialize .importError 3 OCRContextManager.new =
      (.error (.initError "E103"), OCRContextManager.new, true) ∧
    OCRContextManager.initialize .runtimeError 3 OCRContextManager.new =
      (.error (.initError "E101"), OCRContextManager.new, true) := by
  refine ⟨(C6_initialize_idempotent_atomic ⟨some 7, true⟩ FactoryOutcome.ok 3 7).1 rfl rfl,
    ?_, ?_⟩
  · exact ((C6_initialize_idempotent_atomic OCRContextManager.new .importError 3 0).2
      rfl rfl).1
  · exact ((C6_initialize_idempotent_atomic OCRContextManager.new .runtimeError 3 0).2
      rfl rfl).2

/-- **C7.** `cleanup()` is idempotent: on a manager holding an engine the
first call releases it exactly once and the second call releases nothing;
on a fresh manager (before `initialize()`) it is a harmless no-op; any
manager satisfying the reachable-state invariant (`ocr = None` implies
`_initialized = False`) holds no handle after a `cleanup()` call; and a
second consecutive `cleanup()` changes nothing and releases nothing. -/
theorem C7_cleanup_idempotent (m : OCRContextManager) :
    (m.ocr.isSome = true →
      m.cleanup.2 = 1 ∧ (m.cleanup.1.cleanup).2 = 0) ∧
    OCRContextManager.new.cleanup = (OCRContextManager.new, 0) ∧
    ((m.ocr = none → m.initialized = false) →
      m.cleanup.1.ocr = none ∧ m.cleanup.1.initialized = false) ∧
    m.cleanup.1.cleanup = (m.cleanup.1, 0) := by
  refine ⟨?_, rfl, ?_, ?_⟩
  · intro h
    cases hocr : m.ocr with
    | none => simp [hocr] at h
    | some e => simp [OCRContextManager.cleanup, hocr]
  · intro hinv
    cases hocr : m.ocr with
    | none => simpa [OCRContextManager.cleanup, hocr] using hinv hocr
    | some e => simp [OCRContextManager.cleanup, hocr]
  · cases hocr : m.ocr <;> simp [OCRContextManager.cleanup, hocr]

/-- **C7 witness.** Applied to a Ready manager holding engine 5: the first
cleanup releases once, the second releases nothing, and after a cleanup no
handle is held. -/
theorem C7_cleanup_idempotent_witness :
    (OCRContextManager.cleanup ⟨some 5, true⟩).2 = 1 ∧
    ((OCRContextManager.cleanup ⟨some 5, true⟩).1.cleanup).2 = 0 ∧
    (OCRContextManager.cleanup ⟨some 5, true⟩).1.ocr = none ∧
    (OCRContextManager.cleanup ⟨some 5, true⟩).1.initialized = false := by
  obtain ⟨h1, _, h3, _⟩ := C7_cleanup_idempotent ⟨some 5, true⟩
  obtain ⟨ha, hb⟩ := h1 rfl
  obtain ⟨hc, hd⟩ := h3 (by intro h; cases h)
  exact ⟨ha, hb, hc, hd⟩

/-- A language accepted by `is_supported_language` is always resolvable
by `normalize_language` (the exact-match branches fire). -/
theorem normalize_isSome_of_supported {l : String}
    (h : is_supported_language l = true) :
    (normalize_language l).isSome = true := by
  cases hS : SUPPORTED_LANGUAGES.lookup (strLower l) with
  | some c => simp [normalize_language, hS]
  | none =>
    cases hS2 : SUPPORTED_LANGUAGES.lookup l with
    | some c => simp [normalize_language, hS, hS2]
    | none =>
      cases hA : LANGUAGE_ALIASES.lookup (strLower l) with
      | some c => simp [normalize_language, hS, hS2, hA]
      | none =>
        cases hA2 : LANGUAGE_ALIASES.lookup l with
        | some c => simp [normalize_language, hS, hS2, hA, hA2]
        | none => simp [is_supported_language, hS2, hA2] at h

/-- Every alias of `LANGUAGE_ALIASES` maps to a supported canonical code. -/
theorem alias_values_supported :
    ∀ p ∈ LANGUAGE_ALIASES, (SUPPORTED_LANGUAGES.lookup p.2).isSome = true := by
  decide

/-- Every supported canonical code is a fixed point of `normalize_language`. -/
theorem supported_keys_normalize_fixed :
    ∀ p ∈ SUPPORTED_LANGUAGES, normalize_language p.1 = some p.1 := by
  decide

/-- A successful association-list lookup returns the value of an entry of
the list. -/
theorem lookup_mem {l : List (String × String)} {k v : String}
    (h : l.lookup k = some v) : (k, v) ∈ l := by
  induction l with
  | nil => simp [List.lookup] at h
  | cons p rest ih =>
    obtain ⟨a, b⟩ := p
    rw [List.lookup_cons] at h
    rcases hk : (k == a) with _ | _
    · simp only [hk] at h
      exact List.mem_cons_of_mem _ (ih h)
    · simp only [hk, Option.some.injEq] at h
      subst h
      rw [eq_of_beq hk]
      exact List.mem_cons_self _ _

/-- **C10.** `normalize_language` is closed over the supported set and
idempotent: whenever it resolves an input to `r`, the result `r` is a key
of `SUPPORTED_LANGUAGES`, and normalizing `r` again returns `r`
unchanged. -/
theorem C10_normalize_closed_idempotent (lang r : String)
    (h : normalize_language lang = some r) :
    (SUPPORTED_LANGUAGES.lookup r).isSome = true ∧
    normalize_language r = some r := by
  have hmem : (SUPPORTED_LANGUAGES.lookup r).isSome = true := by
    cases hS : SUPPORTED_LANGUAGES.lookup (strLower lang) with
    | some c =>
      simp only [normalize_language, hS, Option.isSome_some, if_true,
        Option.some.injEq] at h
      rw [← h, hS]; rfl
    | none =>
      cases hS2 : SUPPORTED_LANGUAGES.lookup lang with
      | some c =>
        simp only [normalize_language, hS, hS2, Option.isSome_none,
          Option.isSome_some, Bool.false_eq_true, if_false, if_true,
          Option.some.injEq] at h
        rw [← h, hS2]; rfl
      | none =>
        cases hA : LANGUAGE_ALIASES.lookup (strLower lang) with
        | some c =>
          simp only [normalize_language, hS, hS2, hA, Option.isSome_none,
            Bool.false_eq_true, if_false, Option.some.injEq] at h
          rw [← h]
          exact alias_values_supported (strLower lang, c) (lookup_mem hA)
        | none =>
          cases hA2 : LANGUAGE_ALIASES.lookup lang with
          | some c =>
            simp only [normalize_language, hS, hS2, hA, hA2, Option.isSome_none,
              Bool.false_eq_true, if_false, Option.some.injEq] at h
            rw [← h]
            exact alias_values_supported (lang, c) (lookup_mem hA2)
          | none =>
            simp [normalize_language, hS, hS2, hA, hA2] at h
  refine ⟨hmem, ?_⟩
  cases hr : SUPPORTED_LANGUAGES.lookup r with
  | none => rw [hr] at hmem; cases hmem
  | some v => exact supported_keys_normalize_fixed (r, v) (lookup_mem hr)

/-- **C10 witness.** Applied to the alias `"chinese"`, which normalizes to
the supported code `"ch"`, itself a `normalize_language` fixed point. -/
theorem C10_normalize_closed_idempotent_witness :
    (SUPPORTED_LANGUAGES.lookup "ch").isSome = true ∧
    normalize_language "ch" = some "ch" := by
  exact C10_normalize_closed_idempotent "chinese" "ch" (by decide)

/-- **C9 (counterexample).** The claim "get_or_create raises
ConfigurationError exactly for keys language normalization cannot
resolve" fails at the key `"CH"`: `normalize_language` resolves it (to
`"ch"`), yet `_get_or_create_engine` raises `OCRConfigError` because its
gate `is_supported_language` is a case-sensitive exact-membership test. -/
theorem C9_counterexample :
    normalize_language "CH" = some "ch" ∧
    (get_or_create_engine (fun _ => FactoryOutcome.ok) "CH" EngineCache.empty).1 =
      .error (.configError "不支持的语言: CH") := by
  constructor
  · decide
  · rfl

/-- **C9 (amended).** `_get_or_create_engine` raises `OCRConfigError`
exactly for keys outside the case-sensitive union of supported codes and
known aliases (`is_supported_language`); in particular every key that
normalization cannot resolve raises `OCRConfigError`, but so do some
normalization-resolvable keys (case variants), per `C9_counterexample`. -/
theorem C9_config_error_iff_unsupported (factory : String → FactoryOutcome)
    (lang : String) (s : EngineCache) :
    ((∃ msg, (get_or_create_engine factory lang s).1 = .error (.configError msg)) ↔
      is_supported_language lang = false) ∧
    (normalize_language lang = none →
      (get_or_create_engine factory lang s).1 =
        .error (.configError s!"不支持的语言: {lang}")) := by
  have hgate : ∀ h : is_supported_language lang = false,
      (get_or_create_engine factory lang s).1 =
        .error (.configError s!"不支持的语言: {lang}") := by
    intro h
    simp [get_or_create_engine, h]
  constructor
  · constructor
    · rintro ⟨msg, hmsg⟩
      by_contra hs
      rw [Bool.not_eq_false] at hs
      cases hn : normalize_language lang with
      | none =>
        have := normalize_isSome_of_supported hs
        rw [hn] at this; cases this
      | some nl =>
        cases hlk : s.cache.lookup nl with
        | some e => simp [get_or_create_engine, hs, hn, hlk] at hmsg
        | none =>
          cases hf : factory nl with
          | ok => simp [get_or_create_engine, hs, hn, hlk, hf] at hmsg
          | importError => simp [get_or_create_engine, hs, hn, hlk, hf] at hmsg
          | runtimeError => simp [get_or_create_engine, hs, hn, hlk, hf] at hmsg
    · intro h
      exact ⟨s!"不支持的语言: {lang}", hgate h⟩
  · intro hn
    have hs : is_supported_language lang = false := by
      by_contra h
      rw [Bool.not_eq_false] at h
      have := normalize_isSome_of_supported h
      rw [hn] at this; cases this
    exact hgate hs

/-- **C9 witness.** Applied at the unknown key `"klingon"`, which is
neither a supported code nor an alias: the call raises `OCRConfigError`,
and indeed normalization cannot resolve it. -/
theorem C9_config_error_iff_unsupported_witness :
    (∃ msg, (get_or_create_engine (fun _ => FactoryOutcome.ok) "klingon"
        EngineCache.empty).1 = .error (.configError msg)) ∧
    (get_or_create_engine (fun _ => FactoryOutcome.ok) "klingon"
        EngineCache.empty).1 = .error (.configError "不支持的语言: klingon") := by
  refine ⟨((C9_config_error_iff_unsupported (fun _ => FactoryOutcome.ok)
    "klingon" EngineCache.empty).1).mpr (by decide), ?_⟩
  exact (C9_config_error_iff_unsupported (fun _ => FactoryOutcome.ok)
    "klingon" EngineCache.empty).2 (by decide)

/-- **C2.** Cache identity: if a `_get_or_create_engine` call for `k1`
returned engine `e` leaving state `s1`, then a second call with any key
`k2` that normalizes to the same canonical code (including `k2 = k1`, or
an alias of it) returns the very same engine identifier and leaves the
state — including the factory-invocation count — unchanged: it is served
from the cache and the factory is not invoked again.  Moreover, starting
from an empty cache the first call invoked the factory exactly once. -/
theorem C2_cache_identity (factory : String → FactoryOutcome) (k1 k2 : String)
    (s s1 : EngineCache) (e : Nat)
    (h2 : is_supported_language k2 = true)
    (hn : normalize_language k1 = normalize_language k2)
    (hfirst : get_or_create_engine factory k1 s = (.ok e, s1)) :
    get_or_create_engine factory k2 s1 = (.ok e, s1) ∧
    (s.cache = [] → s1.created = s.created + 1) := by
  have h1 : is_supported_language k1 = true := by
    by_contra h
    rw [Bool.not_eq_true] at h
    simp [get_or_create_engine, h] at hfirst
  cases hnk1 : normalize_language k1 with
  | none => simp [get_or_create_engine, h1, hnk1] at hfirst
  | some nl =>
    have hnk2 : normalize_language k2 = some nl := by rw [← hn, hnk1]
    cases hlk : s.cache.lookup nl with
    | some e0 =>
      simp [get_or_create_engine, h1, hnk1, hlk] at hfirst
      obtain ⟨he, hs⟩ := hfirst
      subst he
      subst hs
      constructor
      · simp [get_or_create_engine, h2, hnk2, hlk]
      · intro hc
        rw [hc] at hlk
        simp [List.lookup] at hlk
    | none =>
      cases hf : factory nl with
      | ok =>
        simp [get_or_create_engine, h1, hnk1, hlk, hf] at hfirst
        obtain ⟨he, hs1⟩ := hfirst
        subst he
        constructor
        · simp [get_or_create_engine, h2, hnk2, ← hs1, List.lookup_cons]
        · intro _
          rw [← hs1]
      | importError =>
        simp [get_or_create_engine, h1, hnk1, hlk, hf] at hfirst
      | runtimeError =>
        simp [get_or_create_engine, h1, hnk1, hlk, hf] at hfirst

/-- **C2 witness.** From an empty cache, creating the engine for the alias
`"chinese"` allocates engine 0 and invokes the factory once; applying the
theorem, the subsequent call for its canonical form `"ch"` returns the
identical engine 0 with the cache state (and factory count) unchanged. -/
theorem C2_cache_identity_witness :
    get_or_create_engine (fun _ => FactoryOutcome.ok) "ch"
        (⟨[("ch", 0)], 1, 1⟩ : EngineCache) =
      (.ok 0, (⟨[("ch", 0)], 1, 1⟩ : EngineCache)) ∧
    (⟨[("ch", 0)], 1, 1⟩ : EngineCache).created = EngineCache.empty.created + 1 := by
  have h := C2_cache_identity (fun _ => FactoryOutcome.ok) "chinese" "ch"
    EngineCache.empty ⟨[("ch", 0)], 1, 1⟩ 0 (by decide) (by decide) rfl
  exact ⟨h.1, h.2 rfl⟩

/-- The `LanguageResult` that `recognize` produces for a candidate when
the file exists and the engine is available: an error record with empty
texts and zero confidence when `predict` raises, the averaged texts
otherwise. -/
def candidateResult (predict : String → Except String (List ℚ))
    (lang : String) : LanguageResult :=
  match predict lang with
  | .error msg =>
    { language_code := lang, texts := [], average_confidence := 0,
      text_count := 0, error := some msg }
  | .ok texts =>
    { language_code := lang, texts := texts,
      average_confidence :=
        if texts.length > 0 then texts.sum / (texts.length : ℚ) else 0,
      text_count := texts.length, error := none }

/-- With an always-succeeding factory, `_get_or_create_engine` succeeds on
every supported language. -/
theorem get_or_create_engine_ok (l : String) (s : EngineCache)
    (h : is_supported_language l = true) :
    ∃ e s', get_or_create_engine (fun _ => FactoryOutcome.ok) l s =
      (.ok e, s') := by
  cases hn : normalize_language l with
  | none =>
    have := normalize_isSome_of_supported h
    rw [hn] at this; cases this
  | some nl =>
    cases hlk : s.cache.lookup nl with
    | some e => exact ⟨e, s, by simp [get_or_create_engine, h, hn, hlk]⟩
    | none =>
      exact ⟨s.nextId, ⟨(nl, s.nextId) :: s.cache, s.nextId + 1, s.created + 1⟩,
        by simp [get_or_create_engine, h, hn, hlk]⟩

/-- On a supported language with an existing file and a working factory,
`recognize` never raises: it returns exactly `candidateResult predict l`
(some cache state threading along). -/
theorem recognize_ok (predict : String → Except String (List ℚ)) (l : String)
    (s : EngineCache) (h : is_supported_language l = true) :
    ∃ s', recognize (fun _ => FactoryOutcome.ok) true predict l s =
      .ok (candidateResult predict l, s') := by
  obtain ⟨e, s1, heng⟩ := get_or_create_engine_ok l s h
  cases hp : predict l with
  | error msg =>
    exact ⟨s1, by simp [recognize, heng, hp, candidateResult]⟩
  | ok texts =>
    exact ⟨s1, by simp [recognize, heng, hp, candidateResult]⟩

/-- Characterization of the `auto_detect` loop when every candidate's
`recognize` call returns normally with a state-independent result:
the loop returns normally, `all_results` accumulates exactly one result
per candidate in order, and as long as the running `best_confidence` is
nonnegative and every candidate's result either carries an error or has
zero average confidence, the running best is never replaced. -/
theorem auto_detect_go_characterization
    (recog : String → EngineCache → Except OCRErr (LanguageResult × EngineCache))
    (res : String → LanguageResult) :
    ∀ (cands : List String), (∀ l ∈ cands, ∀ s, ∃ s', recog l s = .ok (res l, s')) →
    ∀ (s : EngineCache) (bc : ℚ) (best : Option LanguageResult)
      (acc : List LanguageResult),
      ∃ ad s', auto_detect_go recog cands s bc best acc = .ok (ad, s') ∧
        ad.all_results = acc.reverse ++ cands.map res ∧
        (0 ≤ bc →
          (∀ l ∈ cands, (res l).error.isSome = true ∨ (res l).average_confidence = 0) →
          ad.best_match = best) := by
  intro cands
  induction cands with
  | nil =>
    intro _ s bc best acc
    exact ⟨⟨best, acc.reverse⟩, s, rfl, by simp, fun _ _ => rfl⟩
  | cons l rest ih =>
    intro hrec s bc best acc
    obtain ⟨s1, hl⟩ := hrec l (List.mem_cons_self l rest) s
    have hrest : ∀ l' ∈ rest, ∀ s, ∃ s', recog l' s = .ok (res l', s') :=
      fun l' hl' => hrec l' (List.mem_cons_of_mem _ hl')
    by_cases hcond : (res l).is_success = true ∧ bc < (res l).average_confidence
    · obtain ⟨ad, s', heq, hall, _⟩ :=
        ih hrest s1 (res l).average_confidence (some (res l)) (res l :: acc)
      refine ⟨ad, s', ?_, ?_, ?_⟩
      · simp only [auto_detect_go, hl]
        rw [if_pos hcond]
        exact heq
      · simpa using hall
      · intro hbc hzero
        exfalso
        rcases hzero l (List.mem_cons_self l rest) with herr | havg
        · have : (res l).is_success = false := by
            simp [LanguageResult.is_success, Option.isNone_iff_eq_none]
            intro hnone
            rw [hnone] at herr
            cases herr
          rw [this] at hcond
          cases hcond.1
        · rw [havg] at hcond
          exact absurd hcond.2 (not_lt.mpr hbc)
    · obtain ⟨ad, s', heq, hall, hbest⟩ := ih hrest s1 bc best (res l :: acc)
      refine ⟨ad, s', ?_, ?_, ?_⟩
      · simp only [auto_detect_go, hl]
        rw [if_neg hcond]
        exact heq
      · simpa using hall
      · intro hbc hzero
        exact hbest hbc fun l' hl' => hzero l' (List.mem_cons_of_mem _ hl')

/-- **C3.** `auto_detect` never lets a per-candidate recognition failure
escape as an exception: over supported candidates with an existing image
and a working engine factory, for every predict function the call returns
normally, records exactly one result per candidate, records each failed
candidate as a zero-confidence/empty error result in `all_results`, and
returns `best_match = None` whenever every candidate fails or yields zero
average confidence. -/
theorem C3_auto_detect_isolates_failures
    (predict : String → Except String (List ℚ)) (candidates : List String)
    (s : EngineCache)
    (hsupp : ∀ l ∈ candidates, is_supported_language l = true) :
    ∃ ad s',
      auto_detect (fun _ => FactoryOutcome.ok) true predict candidates s =
        .ok (ad, s') ∧
      ad.all_results.length = candidates.length ∧
      (∀ l ∈ candidates, ∀ msg, predict l = .error msg →
        ({ language_code := l, texts := [], average_confidence := 0,
           text_count := 0, error := some msg } : LanguageResult) ∈
          ad.all_results) ∧
      ((∀ r ∈ ad.all_results, r.error.isSome = true ∨ r.average_confidence = 0) →
        ad.best_match = none) := by
  obtain ⟨ad, s', heq, hall, hbest⟩ :=
    auto_detect_go_characterization
      (recognize (fun _ => FactoryOutcome.ok) true predict)
      (candidateResult predict) candidates
      (fun l hl s0 => recognize_ok predict l s0 (hsupp l hl)) s 0 none []
  refine ⟨ad, s', heq, ?_, ?_, ?_⟩
  · simp [hall]
  · intro l hl msg hmsg
    rw [hall]
    simp only [List.reverse_nil, List.nil_append]
    have : candidateResult predict l =
        { language_code := l, texts := [], average_confidence := 0,
          text_count := 0, error := some msg } := by
      simp [candidateResult, hmsg]
    exact this ▸ List.mem_map_of_mem (candidateResult predict) hl
  · intro hzero
    refine hbest le_rfl fun l hl => ?_
    refine hzero (candidateResult predict l) ?_
    rw [hall]
    simpa using List.mem_map_of_mem (candidateResult predict) hl

/-- **C3 witness.** Candidates `["ch", "en"]` where recognition of `"ch"`
raises `"boom"` and `"en"` detects no text: the run returns normally, has
two results, records the `"ch"` failure as an empty zero-confidence error
result, and — since every candidate failed or had zero confidence — a
null best match. -/
theorem C3_auto_detect_isolates_failures_witness :
    ∃ ad s',
      auto_detect (fun _ => FactoryOutcome.ok) true
          (fun l => if l == "ch" then Except.error "boom"
            else Except.ok ([] : List ℚ))
          ["ch", "en"] EngineCache.empty =
        .ok (ad, s') ∧
      ad.all_results.length = (["ch", "en"] : List String).length ∧
      (∀ l ∈ (["ch", "en"] : List String), ∀ msg,
        (if l == "ch" then Except.error "boom" else Except.ok ([] : List ℚ)) =
          .error msg →
        ({ language_code := l, texts := [], average_confidence := 0,
           text_count := 0, error := some msg } : LanguageResult) ∈
          ad.all_results) ∧
      ((∀ r ∈ ad.all_results, r.error.isSome = true ∨ r.average_confidence = 0) →
        ad.best_match = none) := by
  exact C3_auto_detect_isolates_failures
    (fun l => if l == "ch" then Except.error "boom" else Except.ok ([] : List ℚ))
    ["ch", "en"] EngineCache.empty (by decide)

/-- Full evaluation of the spec's tie-break scenario: candidates
`["ch", "en"]`, recognition returning a single text of confidence 9/10
for every language, so both candidates average exactly 9/10. -/
theorem auto_detect_equal_confidences_eval :
    auto_detect (fun _ => FactoryOutcome.ok) true
        (fun _ => Except.ok [(9 : ℚ)/10]) ["ch", "en"] EngineCache.empty =
      .ok (⟨some ⟨"ch", [(9 : ℚ)/10], (9 : ℚ)/10, 1, none⟩,
            [⟨"ch", [(9 : ℚ)/10], (9 : ℚ)/10, 1, none⟩,
             ⟨"en", [(9 : ℚ)/10], (9 : ℚ)/10, 1, none⟩]⟩,
        (⟨[("en", 1), ("ch", 0)], 2, 2⟩ : EngineCache)) := by
  have hA : get_or_create_engine (fun _ => FactoryOutcome.ok) "ch"
      EngineCache.empty = (.ok 0, (⟨[("ch", 0)], 1, 1⟩ : EngineCache)) := rfl
  have hB : get_or_create_engine (fun _ => FactoryOutcome.ok) "en"
      (⟨[("ch", 0)], 1, 1⟩ : EngineCache) =
      (.ok 1, (⟨[("en", 1), ("ch", 0)], 2, 2⟩ : EngineCache)) := rfl
  have hr_ch : recognize (fun _ => FactoryOutcome.ok) true
      (fun _ => Except.ok [(9 : ℚ)/10]) "ch" EngineCache.empty =
      .ok (⟨"ch", [(9 : ℚ)/10], (9 : ℚ)/10, 1, none⟩,
        (⟨[("ch", 0)], 1, 1⟩ : EngineCache)) := by
    simp [recognize, hA]
  have hr_en : recognize (fun _ => FactoryOutcome.ok) true
      (fun _ => Except.ok [(9 : ℚ)/10]) "en"
      (⟨[("ch", 0)], 1, 1⟩ : EngineCache) =
      .ok (⟨"en", [(9 : ℚ)/10], (9 : ℚ)/10, 1, none⟩,
        (⟨[("en", 1), ("ch", 0)], 2, 2⟩ : EngineCache)) := by
    simp [recognize, hB]
  have hsucc : LanguageResult.is_success ⟨"ch", [(9 : ℚ)/10], (9 : ℚ)/10, 1, none⟩ =
      true := by decide
  rw [auto_detect]
  norm_num [auto_detect_go, hr_ch, hr_en, hsucc]

/-- **C4.** Ties are broken in favor of the earliest candidate: a step of
the `auto_detect` loop whose result merely equals (rather than strictly
exceeds) the running best confidence leaves the running best untouched;
in particular, for candidates `["ch", "en"]` whose recognitions both
average confidence 9/10, `auto_detect` selects `"ch"`. -/
theorem C4_tie_break_earliest
    (recog : String → EngineCache → Except OCRErr (LanguageResult × EngineCache))
    (lang : String) (rest : List String) (s s1 : EngineCache) (bc : ℚ)
    (best : Option LanguageResult) (acc : List LanguageResult)
    (r : LanguageResult) (hr : recog lang s = .ok (r, s1))
    (htie : r.average_confidence = bc) :
    auto_detect_go recog (lang :: rest) s bc best acc =
      auto_detect_go recog rest s1 bc best (r :: acc) ∧
    ((auto_detect (fun _ => FactoryOutcome.ok) true
        (fun _ => Except.ok [(9 : ℚ)/10]) ["ch", "en"]
        EngineCache.empty).toOption.map fun p => p.1.detected_language) =
      some (some "ch") := by
  constructor
  · simp only [auto_detect_go, hr]
    rw [if_neg]
    rintro ⟨-, hlt⟩
    rw [htie] at hlt
    exact lt_irrefl bc hlt
  · rw [auto_detect_equal_confidences_eval]
    rfl

/-- **C4 witness.** The tie-breaking step applied at a concrete input: a
result of confidence equal to the running best (both 0) leaves the
running best in place. -/
theorem C4_tie_break_earliest_witness :
    auto_detect_go (fun l s => .ok (⟨l, [], 0, 0, none⟩, s)) ["ch"]
        EngineCache.empty 0 none [] =
      auto_detect_go (fun l s => .ok (⟨l, [], 0, 0, none⟩, s)) []
        EngineCache.empty 0 none [⟨"ch", [], 0, 0, none⟩] ∧
    ((auto_detect (fun _ => FactoryOutcome.ok) true
        (fun _ => Except.ok [(9 : ℚ)/10]) ["ch", "en"]
        EngineCache.empty).toOption.map fun p => p.1.detected_language) =
      some (some "ch") :=
  C4_tie_break_earliest (fun l s => .ok (⟨l, [], 0, 0, none⟩, s)) "ch" []
    EngineCache.empty EngineCache.empty 0 none [] ⟨"ch", [], 0, 0, none⟩ rfl rfl

end PaddleOCRGuide
